import Mathlib

/-!
Verification of the wolffia kernel memory subsystem specification.

Shallow embedding of the Rust sources under src/kernel/src: pure functions are
translated to Lean functions over Nat (machine u64 arithmetic is made explicit
with mod 2^64 where the Rust code can wrap), stateful page-table code is
embedded as explicit state passing over an abstract page map
(page number to mapped/flags), and fallible code returns Except.
-/

namespace Wolffia

/-- Embeds util.rs round_up_divide: (x + y - 1) / y. -/
def round_up_divide (x y : Nat) : Nat :=
  (x + y - 1) / y

/-! ## memory.rs: range_sub

Rust Range is half-open [start, stop). memory.rs range_sub subtracts one range
from another returning an array of at most two optional sub-ranges. -/

/-- A half-open range [lo, hi) of u64, as in Rust core::ops::Range. -/
structure NRange where
  lo : Nat
  hi : Nat
deriving DecidableEq, Repr

/-- Membership in a half-open range. -/
def NRange.mem (r : NRange) (x : Nat) : Prop :=
  r.lo ≤ x ∧ x < r.hi

instance (r : NRange) (x : Nat) : Decidable (r.mem x) :=
  inferInstanceAs (Decidable (_ ∧ _))

/-- Membership of x in an optional range (none is the empty set). -/
def optMem (o : Option NRange) (x : Nat) : Prop :=
  match o with
  | none => False
  | some r => r.mem x

instance (o : Option NRange) (x : Nat) : Decidable (optMem o x) :=
  match o with
  | none => isFalse id
  | some r => inferInstanceAs (Decidable (r.mem x))

/-- Embeds memory.rs range_sub: subtracts sub from main, returning the pair
that embeds the Rust [Option<Range>; 2]. -/
def range_sub (main sub : NRange) : Option NRange × Option NRange :=
  if sub.lo ≤ main.lo then
    -- Hole starts before range
    if sub.hi < main.hi then
      -- Hole covers entire bottom section of range -- only top section
      (none, some ⟨sub.hi, main.hi⟩)
    else
      -- Hole covers entire range -- no range
      (none, none)
  else if sub.lo < main.hi then
    -- Hole starts inside range
    if sub.hi ≥ main.hi then
      -- Hole covers entire end section of range -- only bottom section
      (some ⟨main.lo, sub.lo⟩, none)
    else
      -- Hole divides range into two sections
      (some ⟨main.lo, sub.lo⟩, some ⟨sub.hi, main.hi⟩)
  else
    -- Hole starts outside of range -- full range
    (some ⟨main.lo, main.hi⟩, none)

/-- Membership in the output of range_sub (union of the up-to-two ranges). -/
def pairMem (p : Option NRange × Option NRange) (x : Nat) : Prop :=
  optMem p.1 x ∨ optMem p.2 x

instance (p : Option NRange × Option NRange) (x : Nat) : Decidable (pairMem p x) :=
  inferInstanceAs (Decidable (_ ∨ _))

/-! ## heap.rs: the order function (C8) and the alloc page-mapping loop (C2) -/

namespace Heap

/-- heap.rs BASE_ORDER for the kernel heap buddy tree. -/
def BASE_ORDER : Nat := 6

/-- heap.rs HEAP_START, base virtual address of the kernel heap window. -/
def HEAP_START : Nat := 0xffffffff40000000

/-- The while loop in heap.rs order: counts how many right-shifts until the
value reaches zero (the binary bit length). -/
def bitLoop (i : Nat) : Nat :=
  if i = 0 then 0 else bitLoop (i / 2) + 1
decreasing_by exact Nat.div_lt_self (Nat.pos_of_ne_zero (by assumption)) (by decide)

/-- Embeds heap.rs order: converts a size to a buddy-tree order. -/
def order (val : Nat) : Nat :=
  if val = 0 then 0
  else
    let log2 := bitLoop val
    if log2 > BASE_ORDER then log2 - BASE_ORDER else 0

/-- Maximum order of the 25-level heap tree (LEVELS - 1). -/
def max_order : Nat := 24

/-- Modelled from the spec: friendly::blocks_in_tree is not under src/ (the
buddy tree is an external library). The spec describes the buddy tree as a flat
array of blocks_in_tree(levels) one-byte cells, a full binary tree over the
levels, which has 2^levels - 1 nodes. -/
def blocks_in_tree (levels : Nat) : Nat := 2 ^ levels - 1

/-- heap.rs Heap::tree_size: size of the 25-level heap tree accounting array
(Block is one byte). -/
def tree_size : Nat := blocks_in_tree 25

/-- heap.rs Heap::init return value: ((heap_tree_start / 4096) + 1) * 4096,
computed from the original argument. -/
def initReturn (heap_tree_start : Nat) : Nat :=
  ((heap_tree_start / 4096) + 1) * 4096

/-- memory.rs init_memory: heap_tree_end = value returned by Heap::init plus
Heap::tree_size. -/
def heapTreeEnd (heap_tree_start : Nat) : Nat :=
  initReturn heap_tree_start + tree_size

/-- memory.rs init_memory: start address of the IST stack area, the page
containing round_up_divide(heap_tree_end, 4096) * 4096. -/
def istStacksStart (heap_tree_start : Nat) : Nat :=
  round_up_divide (heapTreeEnd heap_tree_start) 4096 * 4096

/-- Number of loop iterations of the page-mapping loop in heap.rs
GlobalAlloc::alloc: round_up_divide(1 << (order + BASE_ORDER - 1), 4096). -/
def allocLoopPageCount (ord : Nat) : Nat :=
  round_up_divide (2 ^ (ord + BASE_ORDER - 1)) 4096

/-- The 4 KiB page numbers walked and (if unmapped) mapped by the loop in
heap.rs GlobalAlloc::alloc, for the returned pointer ptr. -/
def allocMappedPages (ptr ord : Nat) : List Nat :=
  (List.range (allocLoopPageCount ord)).map (fun page => (ptr + page * 4096) / 4096)

/-- The 4 KiB page numbers that the allocation byte range
[ptr, ptr + size) crosses (size > 0). -/
def pagesCrossed (ptr size : Nat) : List Nat :=
  List.range' (ptr / 4096) ((ptr + size - 1) / 4096 + 1 - ptr / 4096)

end Heap

/-! ## paging.rs: pages, entry flags, canonical addresses -/

/-- paging.rs PageSize (4 KiB and 2 MiB pages). -/
inductive PageSize where
  | Kib4
  | Mib2
deriving DecidableEq, Repr

/-- paging.rs PageSize::bytes. -/
def PageSize.bytes : PageSize → Nat
  | .Kib4 => 4 * 1024
  | .Mib2 => 2 * 1024 * 1024

/-- paging.rs Page: a page number plus an optional size. -/
structure Page where
  number : Nat
  size : Option PageSize
deriving DecidableEq, Repr

/-- paging.rs Page::containing_address: the 4 KiB page containing a u64
address. -/
def Page.containing_address (addr : Nat) : Page :=
  ⟨addr / PageSize.Kib4.bytes, some PageSize.Kib4⟩

/-- paging.rs Page::start_address: number * size.bytes() as u64 arithmetic
(wraps mod 2^64). -/
def Page.start_address (p : Page) : Option Nat :=
  p.size.map (fun s => p.number * s.bytes % 2 ^ 64)

/-- x86_64 VirtAddr::try_new succeeds iff the address is canonical: bits
63..47 all equal bit 47, i.e. addr < 2^47 or addr >= 2^64 - 2^47. -/
def canonical (addr : Nat) : Bool :=
  addr < 2 ^ 47 || 2 ^ 64 - 2 ^ 47 ≤ addr

/-- paging.rs EntryFlags bits (a u64 bitmask). -/
def PRESENT : Nat := 1
/-- EntryFlags::WRITABLE. -/
def WRITABLE : Nat := 2
/-- EntryFlags::USER_ACCESSIBLE. -/
def USER_ACCESSIBLE : Nat := 4
/-- EntryFlags::NO_EXECUTE. -/
def NO_EXECUTE : Nat := 2 ^ 63

/-! ## process.rs: user stack constants and the first-run stack setup (C1) -/

namespace Process

/-- process.rs STACK_TOP: VirtAddr::new_truncate(0x7fffffffe000); the value is
below 2^47 so new_truncate leaves it unchanged. -/
def STACK_TOP : Nat := 0x7fffffffe000

/-- process.rs INITIAL_STACK_SIZE_PAGES. -/
def INITIAL_STACK_SIZE_PAGES : Nat := 16

/-- process.rs STACK_BOTTOM: STACK_TOP minus INITIAL_STACK_SIZE_PAGES
(the subtraction is in bytes in the source). -/
def STACK_BOTTOM : Nat := STACK_TOP - INITIAL_STACK_SIZE_PAGES

/-- The page numbers mapped by Process::setup: the inclusive range from the
page containing STACK_BOTTOM to the page containing STACK_TOP, as iterated by
Mapper::map_range. -/
def setupStackPages : List Nat :=
  List.range' (Page.containing_address STACK_BOTTOM).number
    ((Page.containing_address STACK_TOP).number + 1 -
      (Page.containing_address STACK_BOTTOM).number)

end Process

/-! ## page_map.rs: try_map_user_range (C3, C10)

The page-table state is abstracted as the set of mapped 4 KiB pages, a
function from page number to Bool: walk_page_table on a 4 KiB page returns
Some exactly when the page is mapped, and Mapper::map marks it mapped. -/

namespace PageMap

/-- page_map.rs TryMapError. -/
inductive TryMapError where
  | InvalidAddress (page : Page)
  | AlreadyMapped (page : Page)
deriving DecidableEq, Repr

/-- Modelled from the spec: LAST_USABLE_PAGE is imported from crate::memory in
page_map.rs and buffer.rs but its definition is not under src/. The spec says
the user stack is sixteen 4 KiB pages ending at 0x7fff_ffff_e000 and that the
last usable user page is one below the stack region, giving page number
0x7fffffffe000 / 4096 - 16 = 0x7ffffffee. -/
def LAST_USABLE_PAGE : Page := ⟨0x7ffffffee, some PageSize.Kib4⟩

/-- The stack-bottom page computed in try_map_user_range:
Page::containing_address(STACK_BOTTOM). -/
def stackBottomPage : Page := Page.containing_address Process.STACK_BOTTOM

/-- Abstract active-page-table state: which 4 KiB page numbers are mapped. -/
def PTState := Nat → Bool

/-- Marking one page mapped (the effect of Mapper::map on the abstraction). -/
def PTState.mapPage (σ : PTState) (no : Nat) : PTState :=
  fun q => if q = no then true else σ q

/-- The for loop at the end of try_map_user_range over the page numbers of the
range: each page is checked against walk_page_table when ignore_already_mapped
is false, then mapped. Returns the result together with the state at return
(mutations before an AlreadyMapped error are kept). -/
def mapLoop (σ : PTState) (nos : List Nat) (ignore_already_mapped : Bool) :
    Except TryMapError Unit × PTState :=
  match nos with
  | [] => (Except.ok (), σ)
  | no :: rest =>
    -- Page::containing_address(no as u64 * 0x1000)
    if ignore_already_mapped = false ∧ σ (no * 4096 % 2 ^ 64 / 4096) = true then
      (Except.error (TryMapError.AlreadyMapped
        ⟨no * 4096 % 2 ^ 64 / 4096, some PageSize.Kib4⟩), σ)
    else
      mapLoop (σ.mapPage (no * 4096 % 2 ^ 64 / 4096)) rest ignore_already_mapped

/-- Embeds page_map.rs Mapper::try_map_user_range. Returns none when the
page-size assertion at the top panics; otherwise the Result and the state at
return. The flags, TLB-invalidation and zeroing arguments do not affect which
pages become mapped and are omitted from the abstraction. -/
def try_map_user_range (σ : PTState) (pstart pend : Page)
    (ignore_already_mapped : Bool) :
    Option (Except TryMapError Unit × PTState) :=
  if pstart.size = some PageSize.Kib4 ∧ pend.size = some PageSize.Kib4 then
    -- v_start and v_end are the u64 start addresses of the end pages
    -- Page above last usable page
    if pend.number > LAST_USABLE_PAGE.number then
      some (Except.error (TryMapError.InvalidAddress pend), σ)
    -- Noncanonical address
    else if canonical (pend.number * 4096 % 2 ^ 64) = false then
      some (Except.error (TryMapError.InvalidAddress pend), σ)
    else if canonical (pstart.number * 4096 % 2 ^ 64) = false then
      some (Except.error (TryMapError.InvalidAddress pstart), σ)
    -- Kernel memory (higher half)
    else if pend.number * 4096 % 2 ^ 64 / 2 ^ 63 = 1 then
      some (Except.error (TryMapError.InvalidAddress pend), σ)
    else if pstart.number * 4096 % 2 ^ 64 / 2 ^ 63 = 1 then
      some (Except.error (TryMapError.InvalidAddress pstart), σ)
    -- Program stack
    else if pend.number > stackBottomPage.number then
      some (Except.error (TryMapError.InvalidAddress pend), σ)
    else
      some (mapLoop σ (List.range' pstart.number (pend.number + 1 - pstart.number))
        ignore_already_mapped)
  else
    none

/-- The C3 conditions on an end page of the range: its start address has bit
63 set, or is noncanonical, or the page lies above the stack-bottom page or
above the last usable user page. -/
def badPage (p : Page) : Prop :=
  p.number * 4096 % 2 ^ 64 / 2 ^ 63 = 1 ∨
    canonical (p.number * 4096 % 2 ^ 64) = false ∨
    p.number > stackBottomPage.number ∨
    p.number > LAST_USABLE_PAGE.number

instance (p : Page) : Decidable (badPage p) := by
  unfold badPage
  exact inferInstanceAs (Decidable (_ ∨ _ ∨ _ ∨ _))

end PageMap

/-! ## buffer.rs: BorrowedKernelBuffer::try_from_user (C5)

The page-table state here records, per 4 KiB page number, whether the page is
mapped and whether its entry has USER_ACCESSIBLE: none = unmapped, some u =
mapped with USER_ACCESSIBLE iff u. -/

namespace Buffer

/-- buffer.rs InvalidBufferError. -/
inductive InvalidBufferError where
  | OverlapsKernelSpace
  | InvalidLen
  | Unaligned
  | Unmapped
  | Null
deriving DecidableEq, Repr

/-- Page-table state for buffer validation: page number to
(mapped, USER_ACCESSIBLE set). -/
def BufState := Nat → Option Bool

/-- The boundary address (LAST_USABLE_PAGE + 1).start_address(): the first
byte past the last usable user page. -/
def userBoundary : Nat :=
  (PageMap.LAST_USABLE_PAGE.number + 1) * 4096 % 2 ^ 64

/-- The all-mapped check in try_from_user: every page from page_begin to
page_end walks to an entry containing USER_ACCESSIBLE. -/
def allUserMapped (σ : BufState) (pageBegin pageEnd : Nat) : Bool :=
  (List.range' pageBegin (pageEnd + 1 - pageBegin)).all
    (fun q => (σ q).getD false)

/-- Embeds buffer.rs BorrowedKernelBuffer::try_from_user for an element type
of size tsize and alignment talign (the program instantiates it at u8: size 1,
alignment 1). ptr is none for a null pointer; u64 arithmetic wraps mod 2^64.
The Ok payload (the borrowed slice itself) is abstracted to Unit. -/
def try_from_user (σ : BufState) (ptr : Option Nat) (len : Nat)
    (tsize talign : Nat) : Except InvalidBufferError Unit :=
  match ptr with
  | none => Except.error InvalidBufferError.Null
  | some p =>
    if p % talign ≠ 0 then
      Except.error InvalidBufferError.Unaligned
    else if len = 0 ∨ len > 2 ^ 63 - 1 then
      Except.error InvalidBufferError.InvalidLen
    else
      -- the span is len * size_of::<T>() as u64 - 1, with wrapping u64
      -- multiply and subtract; the buffer end byte is
      -- (ptr as u64).checked_add(span)
      if p + (len * tsize % 2 ^ 64 + (2 ^ 64 - 1)) % 2 ^ 64 < 2 ^ 64 then
        if p + (len * tsize % 2 ^ 64 + (2 ^ 64 - 1)) % 2 ^ 64 < userBoundary then
          if allUserMapped σ (p / 4096)
              ((p + (len * tsize % 2 ^ 64 + (2 ^ 64 - 1)) % 2 ^ 64) / 4096) then
            Except.ok ()
          else
            Except.error InvalidBufferError.Unmapped
        else
          Except.error InvalidBufferError.OverlapsKernelSpace
      else
        Except.error InvalidBufferError.InvalidLen

/-- The claim C5 read as a predicted result, in its own listed order (Null,
InvalidLen, Unaligned, OverlapsKernelSpace, Unmapped), with the end byte
computed in plain arithmetic (no overflow behaviour is mentioned by the
claim). -/
def claimPredictedC5 (σ : BufState) (ptr : Option Nat) (len : Nat)
    (tsize talign : Nat) : Except InvalidBufferError Unit :=
  match ptr with
  | none => Except.error InvalidBufferError.Null
  | some p =>
    if len = 0 ∨ len > 2 ^ 63 - 1 then
      Except.error InvalidBufferError.InvalidLen
    else if p % talign ≠ 0 then
      Except.error InvalidBufferError.Unaligned
    else if p + len * tsize - 1 ≥ userBoundary then
      Except.error InvalidBufferError.OverlapsKernelSpace
    else if ¬ allUserMapped σ (p / 4096) ((p + len * tsize - 1) / 4096) then
      Except.error InvalidBufferError.Unmapped
    else
      Except.ok ()

/-- The amended claim as a predicted result, following the code's check order:
Null; Unaligned; InvalidLen for len = 0, len > isize::MAX, or an end-byte
computation ptr + len * tsize - 1 that overflows u64; OverlapsKernelSpace when
the end byte reaches the first byte past the last usable user page; Unmapped
when a covered page is unmapped or lacks USER_ACCESSIBLE; Ok otherwise. The
arithmetic here is plain (exact), not wrapping. -/
def amendedPredictedC5 (σ : BufState) (ptr : Option Nat) (len : Nat)
    (tsize talign : Nat) : Except InvalidBufferError Unit :=
  match ptr with
  | none => Except.error InvalidBufferError.Null
  | some p =>
    if p % talign ≠ 0 then
      Except.error InvalidBufferError.Unaligned
    else if len = 0 ∨ len > 2 ^ 63 - 1 then
      Except.error InvalidBufferError.InvalidLen
    else if p + len * tsize - 1 ≥ 2 ^ 64 then
      Except.error InvalidBufferError.InvalidLen
    else if p + len * tsize - 1 ≥ userBoundary then
      Except.error InvalidBufferError.OverlapsKernelSpace
    else if ¬ allUserMapped σ (p / 4096) ((p + len * tsize - 1) / 4096) then
      Except.error InvalidBufferError.Unmapped
    else
      Except.ok ()

end Buffer

/-! ## physical_allocator.rs: deallocate routing (C9) -/

namespace PhysAlloc

/-- physical_allocator.rs LEVEL_COUNT for per-GiB buddy trees. -/
def LEVEL_COUNT : Nat := 19

/-- physical_allocator.rs BASE_ORDER for per-GiB buddy trees. -/
def BASE_ORDER : Nat := 12

/-- Outcome of PhysicalAllocator::deallocate: either the call delegates to a
per-GiB tree (the tree's own deallocation belongs to the external buddy-tree
library) or it panics (array index out of bounds or unwrap of an empty
slot). -/
inductive DeallocOutcome where
  | delegated (treeIndex localPtr order : Nat)
  | panicked
deriving DecidableEq, Repr

/-- The allocator's slot array: per index, whether a tree is initialized.
Only indices below 256 exist; the tree contents are abstract. -/
def Slots := Nat → Option Unit

/-- Embeds physical_allocator.rs PhysicalAllocator::deallocate: routes by high
bits, then locks and unwraps the slot. trees[tree] panics when tree >= 256;
lock.as_mut().unwrap() panics when the slot is None. -/
def deallocate (slots : Slots) (frame_addr order : Nat) : DeallocOutcome :=
  let tree := frame_addr >>> (LEVEL_COUNT - 1 + BASE_ORDER)
  let local_ptr := frame_addr % 2 ^ (LEVEL_COUNT - 1 + BASE_ORDER)
  if tree < 256 then
    match slots tree with
    | some _ => DeallocOutcome.delegated tree local_ptr order
    | none => DeallocOutcome.panicked
  else
    DeallocOutcome.panicked

end PhysAlloc

/-! ## process.rs / page_map.rs: process P4 construction and activation (C6)

A P4 table is 512 raw u64 entries. PageTableEntry::set writes
physical_address | flags. -/

namespace P4

/-- A P4 table: entry index (0..511) to raw u64 entry. -/
def Table := Fin 512 → Nat

/-- The recursive self-map flags used by InactivePageMap::new and
with_inactive_p4: PRESENT | WRITABLE | NO_EXECUTE | USER_ACCESSIBLE. -/
def SELF_MAP_FLAGS : Nat := PRESENT ||| WRITABLE ||| NO_EXECUTE ||| USER_ACCESSIBLE

/-- Embeds page_map.rs InactivePageMap::new: the new frame is zeroed through
the temporary page and entry 510 is set to the frame itself with
SELF_MAP_FLAGS. -/
def inactivePageMapNew (frameAddr : Nat) : Table :=
  fun i => if i = (510 : Fin 512) then frameAddr ||| SELF_MAP_FLAGS else 0

/-- Embeds process.rs Process::new_process_page_tables: build a table with
InactivePageMap::new on a fresh frame, then copy entry 511 from the active
P4. -/
def newProcessPageTables (active : Table) (frameAddr : Nat) : Table :=
  fun i => if i = (511 : Fin 512) then active (511 : Fin 512)
    else inactivePageMapNew frameAddr i

/-- The P4 tables the kernel activates (loads into CR3) after the kernel's own
page tables are established, paired with the physical frame each lives in:
the kernel table itself, and every process table built by spawn_from_elf from
the then-active table. Segment installation inside with_inactive edits only
entries with index below 256 (user-half addresses), recorded by the userUpd
override. -/
inductive Activated (kernel : Table) (kernelFrame : Nat) : Table → Nat → Prop where
  | kernelTable : Activated kernel kernelFrame kernel kernelFrame
  | spawned (active : Table) (activeFrame frameAddr : Nat)
      (userUpd : Fin 512 → Option Nat)
      (hactive : Activated kernel kernelFrame active activeFrame)
      (huser : ∀ i : Fin 512, 256 ≤ i.val → userUpd i = none) :
      Activated kernel kernelFrame
        (fun i => (userUpd i).getD (newProcessPageTables active frameAddr i))
        frameAddr

/-- The two C6 invariants of a P4 table in frame f: entry 510 is the recursive
self-map with the fixed flags, and entry 511 equals the kernel table's
higher-half entry. -/
def SelfMapAndKernelEntry (kernel : Table) (t : Table) (f : Nat) : Prop :=
  t (510 : Fin 512) = f ||| SELF_MAP_FLAGS ∧
    t (511 : Fin 512) = kernel (511 : Fin 512)

/-- A concrete kernel P4 table used to evaluate the activation invariant:
frame 0x1000, self-mapped at 510, arbitrary kernel higher-half entry at
511. -/
def witnessKernelTable : Table :=
  fun i => if i = (510 : Fin 512) then 0x1000 ||| SELF_MAP_FLAGS
    else if i = (511 : Fin 512) then 0x42 else 0

end P4

/-! ## Concrete states used to evaluate the hypothesis-bearing theorems -/

/-- A page-table state with exactly page 5 mapped. -/
def onlyPage5 : PageMap.PTState := fun q => q == 5

/-- The state after the try_map_user_range loop over pages 3..6 stops at the
already-mapped page 5. -/
def onlyPage5After : PageMap.PTState :=
  (PageMap.mapLoop onlyPage5 (List.range' 3 4) false).2

/-- A buffer-validation state with no page mapped. -/
def emptyBufState : Buffer.BufState := fun _ => none

/-- A buffer-validation state with exactly pages 2 and 3 mapped
USER_ACCESSIBLE. -/
def userPages23 : Buffer.BufState :=
  fun q => if q = 2 ∨ q = 3 then some true else none

/-! ## Theorems -/

/-- Claim C4: range_sub(main, sub) should return at most two pairwise disjoint
sub-ranges of main whose union is main minus sub. This fails when sub lies
entirely below main: for main = 5..10 and sub = 1..2 the code returns
[None, Some(2..10)], which contains 3, an element outside main and outside
main minus sub. -/
theorem range_sub_not_difference :
    range_sub ⟨5, 10⟩ ⟨1, 2⟩ = (none, some ⟨2, 10⟩) ∧
    pairMem (range_sub ⟨5, 10⟩ ⟨1, 2⟩) 3 ∧
    ¬ NRange.mem ⟨5, 10⟩ 3 := by
  decide

/-- The while loop of heap.rs order computes the binary bit length: every
value is below 2 to the power of its bit length. -/
theorem bitLoop_lt (i : Nat) : i < 2 ^ Heap.bitLoop i := by
  induction i using Nat.strong_induction_on with
  | _ i ih =>
    rw [Heap.bitLoop]
    by_cases h : i = 0
    · simp [h]
    · simp only [h, if_false]
      have := ih (i / 2) (Nat.div_lt_self (Nat.pos_of_ne_zero h) (by decide))
      rw [pow_succ]
      omega

/-- The bit-length loop of heap.rs order is monotone. -/
theorem bitLoop_mono : ∀ b a : Nat, a ≤ b → Heap.bitLoop a ≤ Heap.bitLoop b := by
  intro b
  induction b using Nat.strong_induction_on with
  | _ b ih =>
    intro a hab
    by_cases ha : a = 0
    · rw [ha, Heap.bitLoop]
      simp
    · have hb : b ≠ 0 := by omega
      conv_lhs => rw [Heap.bitLoop]
      conv_rhs => rw [Heap.bitLoop]
      simp only [ha, hb, if_false]
      have := ih (b / 2) (Nat.div_lt_self (Nat.pos_of_ne_zero hb) (by decide)) (a / 2)
        (Nat.div_le_div_right hab)
      omega

/-- heap.rs order, rewritten through the bit length (covers val = 0 as
well, since the bit length of 0 is 0). -/
theorem order_eq_bitLoop (v : Nat) :
    Heap.order v = if Heap.bitLoop v > 6 then Heap.bitLoop v - 6 else 0 := by
  unfold Heap.order
  by_cases h : v = 0
  · subst h
    rw [Heap.bitLoop]
    simp
  · simp [h, Heap.BASE_ORDER]

/-- The bit length of 65 is 7. -/
theorem bitLoop_65 : Heap.bitLoop 65 = 7 := by
  rw [Heap.bitLoop, Heap.bitLoop, Heap.bitLoop, Heap.bitLoop, Heap.bitLoop,
    Heap.bitLoop, Heap.bitLoop, Heap.bitLoop]
  norm_num

/-- The bit length of 4097 is 13. -/
theorem bitLoop_4097 : Heap.bitLoop 4097 = 13 := by
  rw [Heap.bitLoop, Heap.bitLoop, Heap.bitLoop, Heap.bitLoop, Heap.bitLoop,
    Heap.bitLoop, Heap.bitLoop, Heap.bitLoop, Heap.bitLoop, Heap.bitLoop,
    Heap.bitLoop, Heap.bitLoop, Heap.bitLoop, Heap.bitLoop]
  norm_num

/-- Claim C8 (counterexample): the claimed inequality
2^(order(size) + BASE_ORDER - 1) >= size fails at size = 65, where
order(65) = 1 and 2^(1 + 6 - 1) = 64 < 65. -/
theorem order_inequality_counterexample :
    Heap.order 65 = 1 ∧ ¬ 65 ≤ 2 ^ (Heap.order 65 + Heap.BASE_ORDER - 1) := by
  have h : Heap.order 65 = 1 := by
    rw [order_eq_bitLoop, bitLoop_65]
    decide
  refine ⟨h, ?_⟩
  rw [h]
  decide

/-- Claim C8 (amended): heap.rs order is monotonic, order(0) = 0, and for
every size > 0 the inequality holds with exponent order(size) + BASE_ORDER
(without the minus one): a block of 2^(order(size) + BASE_ORDER) bytes covers
the requested size. -/
theorem order_monotone_bound :
    (∀ a b : Nat, a ≤ b → Heap.order a ≤ Heap.order b) ∧
    (∀ s : Nat, 0 < s → s ≤ 2 ^ (Heap.order s + Heap.BASE_ORDER)) ∧
    Heap.order 0 = 0 := by
  refine ⟨?_, ?_, rfl⟩
  · intro a b hab
    rw [order_eq_bitLoop, order_eq_bitLoop]
    have := bitLoop_mono b a hab
    split <;> split <;> omega
  · intro s _
    rw [order_eq_bitLoop]
    have hlt := bitLoop_lt s
    rw [show Heap.BASE_ORDER = 6 from rfl]
    by_cases h : Heap.bitLoop s > 6
    · rw [if_pos h, Nat.sub_add_cancel (Nat.le_of_lt h)]
      omega
    · rw [if_neg h]
      have : 2 ^ Heap.bitLoop s ≤ 2 ^ 6 := Nat.pow_le_pow_right (by decide) (by omega)
      omega

/-- Witness for the amended C8 theorem at concrete inputs 3 <= 200. -/
theorem order_monotone_bound_witness :
    Heap.order 3 ≤ Heap.order 200 ∧ 200 ≤ 2 ^ (Heap.order 200 + Heap.BASE_ORDER) :=
  ⟨order_monotone_bound.1 3 200 (by norm_num), order_monotone_bound.2.1 200 (by norm_num)⟩

/-- Claim C7 (counterexample): Heap::init does not return the page-rounded
tree start plus the size of the accounting array; at heap_tree_start = 0 it
returns 4096, the page-rounded start itself. -/
theorem heap_init_return_counterexample :
    Heap.initReturn 0 = 4096 ∧ Heap.initReturn 0 ≠ 4096 + Heap.tree_size := by
  decide

/-- Claim C7 (amended): Heap::init returns the page-rounded tree start, the
first address of the accounting region rather than the first address past it;
the bootstrap sequence itself adds Heap::tree_size and rounds up before
placing the IST stacks, so the IST stack area still starts at or past the end
of the accounting array. -/
theorem heap_init_returns_accounting_start (s : Nat) :
    Heap.initReturn s = (s / 4096 + 1) * 4096 ∧
    Heap.initReturn s + Heap.tree_size ≤ Heap.istStacksStart s := by
  refine ⟨rfl, ?_⟩
  unfold Heap.istStacksStart Heap.heapTreeEnd round_up_divide
  omega

/-- Witness for the amended C7 theorem at the concrete start address 12345. -/
theorem heap_init_returns_accounting_start_witness :
    Heap.initReturn 12345 = (12345 / 4096 + 1) * 4096 ∧
    Heap.initReturn 12345 + Heap.tree_size ≤ Heap.istStacksStart 12345 :=
  heap_init_returns_accounting_start 12345

/-- Claim C1 (evaluation): process.rs computes STACK_BOTTOM as STACK_TOP minus
16 bytes (not 16 pages), so the map_range call in Process::setup covers only
the two pages 0x7fffffffd and 0x7fffffffe instead of sixteen. -/
theorem stack_setup_two_pages :
    Process.STACK_BOTTOM = 0x7fffffffdff0 ∧
    Process.setupStackPages = [0x7fffffffd, 0x7fffffffe] ∧
    Process.setupStackPages.length ≠ Process.INITIAL_STACK_SIZE_PAGES := by
  decide

/-- Claim C2 (evaluation): for a 4097-byte layout the heap computes order 7,
and the mapping loop in alloc walks only ceil(2^(7 + 6 - 1) / 4096) = 1 page,
while the allocation starting at the (8192-aligned) block offset 0 crosses two
pages; the second crossed page is never walked or mapped by the loop. -/
theorem alloc_under_maps_page :
    Heap.order 4097 = 7 ∧
    Heap.allocMappedPages Heap.HEAP_START 7 = [0xffffffff40000] ∧
    Heap.pagesCrossed Heap.HEAP_START 4097 = [0xffffffff40000, 0xffffffff40001] ∧
    0xffffffff40001 ∉ Heap.allocMappedPages Heap.HEAP_START 7 := by
  refine ⟨?_, by decide, by decide, by decide⟩
  rw [order_eq_bitLoop, bitLoop_4097]
  decide

/-- Claim C9: PhysicalAllocator::deallocate shifts the address right by
LEVEL_COUNT - 1 + BASE_ORDER = 30 bits to pick the per-GiB tree, passes the
offset addr mod 2^30 to that tree, and panics when the index is at least 256
or the slot holds no tree. -/
theorem deallocate_routes (slots : PhysAlloc.Slots) (frame_addr order : Nat) :
    PhysAlloc.LEVEL_COUNT - 1 + PhysAlloc.BASE_ORDER = 30 ∧
    (frame_addr / 2 ^ 30 < 256 → (slots (frame_addr / 2 ^ 30)).isSome →
      PhysAlloc.deallocate slots frame_addr order =
        PhysAlloc.DeallocOutcome.delegated (frame_addr / 2 ^ 30) (frame_addr % 2 ^ 30) order) ∧
    ((256 ≤ frame_addr / 2 ^ 30 ∨ slots (frame_addr / 2 ^ 30) = none) →
      PhysAlloc.deallocate slots frame_addr order = PhysAlloc.DeallocOutcome.panicked) := by
  have hshift : frame_addr >>> (PhysAlloc.LEVEL_COUNT - 1 + PhysAlloc.BASE_ORDER) =
      frame_addr / 2 ^ 30 := by
    rw [Nat.shiftRight_eq_div_pow]
    rfl
  refine ⟨rfl, ?_, ?_⟩
  · intro hlt hsome
    unfold PhysAlloc.deallocate
    rw [hshift]
    rw [if_pos hlt]
    obtain ⟨u, hu⟩ := Option.isSome_iff_exists.mp hsome
    rw [hu]
    rfl
  · intro hnone
    unfold PhysAlloc.deallocate
    rw [hshift]
    rcases hnone with hge | hnone
    · rw [if_neg (by omega)]
    · by_cases hlt : frame_addr / 2 ^ 30 < 256
      · rw [if_pos hlt, hnone]
      · rw [if_neg hlt]

/-- Any page satisfying one of the C3 conditions has a number above
LAST_USABLE_PAGE: pages up to that number have small, canonical, lower-half
start addresses below both limits. -/
theorem badPage_above_last_usable (p : Page) (h : PageMap.badPage p) :
    p.number > PageMap.LAST_USABLE_PAGE.number := by
  by_contra hle
  push_neg at hle
  have hnum : p.number ≤ 0x7ffffffee := hle
  have hval : p.number * 4096 < 2 ^ 47 := by omega
  have hmod : p.number * 4096 % 2 ^ 64 = p.number * 4096 :=
    Nat.mod_eq_of_lt (by omega)
  rcases h with h | h | h | h
  · rw [hmod] at h
    omega
  · rw [hmod] at h
    simp only [canonical, Bool.or_eq_false_iff, decide_eq_false_iff_not] at h
    omega
  · have hsb : PageMap.stackBottomPage.number = 0x7fffffffd := by decide
    omega
  · exact absurd h (by omega)

/-- Claim C3: whenever an end page of a try_map_user_range range (with
start <= end, both 4 KiB) has a start address with bit 63 set, is
noncanonical, or lies above the stack-bottom page or the last usable user
page, the call returns Err(InvalidAddress(_)) naming the range's end page,
and the page-table state is returned exactly as it was passed in: no entry
has been modified. -/
theorem try_map_user_range_invalid_atomic (σ : PageMap.PTState) (a b : Page)
    (ign : Bool) (ha : a.size = some PageSize.Kib4)
    (hb : b.size = some PageSize.Kib4) (hle : a.number ≤ b.number)
    (hbad : PageMap.badPage a ∨ PageMap.badPage b) :
    PageMap.try_map_user_range σ a b ign =
      some (Except.error (PageMap.TryMapError.InvalidAddress b), σ) := by
  have hbL : b.number > PageMap.LAST_USABLE_PAGE.number := by
    rcases hbad with h | h
    · have := badPage_above_last_usable a h
      omega
    · exact badPage_above_last_usable b h
  unfold PageMap.try_map_user_range
  rw [if_pos ⟨ha, hb⟩, if_pos hbL]

/-- Witness for C3: a range ending above the last usable user page is
rejected without touching the (empty) page-table state. -/
theorem try_map_user_range_invalid_atomic_witness :
    PageMap.try_map_user_range (fun _ => false) (Page.containing_address 0x1000)
      ⟨0x7ffffffff, some PageSize.Kib4⟩ false =
      some (Except.error (PageMap.TryMapError.InvalidAddress
        ⟨0x7ffffffff, some PageSize.Kib4⟩), fun _ => false) :=
  try_map_user_range_invalid_atomic (fun _ => false) (Page.containing_address 0x1000)
    ⟨0x7ffffffff, some PageSize.Kib4⟩ false rfl rfl (by decide)
    (Or.inr (by decide))

/-- The mapping loop of try_map_user_range never unmaps: a page mapped in the
incoming state is mapped in the state at return. -/
theorem mapLoop_preserves_mapped (nos : List Nat) :
    ∀ (σ : PageMap.PTState) (ign : Bool) (q : Nat),
    σ q = true → (PageMap.mapLoop σ nos ign).2 q = true := by
  induction nos with
  | nil =>
    intro σ ign q hq
    exact hq
  | cons no rest ih =>
    intro σ ign q hq
    unfold PageMap.mapLoop
    by_cases hc : ign = false ∧ σ (no * 4096 % 2 ^ 64 / 4096) = true
    · rw [if_pos hc]
      exact hq
    · rw [if_neg hc]
      refine ih _ ign q ?_
      unfold PageMap.PTState.mapPage
      split
      · rfl
      · exact hq

/-- When the mapping loop over pages s..s+n-1 (all below 2^52, so the u64
page-address round trip is exact) stops with AlreadyMapped(p), p is the first
already-mapped page: every earlier page of the range was unmapped on entry
and is mapped in the returned state. -/
theorem mapLoop_already_first (n : Nat) :
    ∀ (s : Nat) (σ : PageMap.PTState) (p : Page) (σ' : PageMap.PTState),
    s + n ≤ 2 ^ 52 →
    PageMap.mapLoop σ (List.range' s n) false =
      (Except.error (PageMap.TryMapError.AlreadyMapped p), σ') →
    s ≤ p.number ∧ p.number < s + n ∧ p.size = some PageSize.Kib4 ∧
      σ p.number = true ∧
      ∀ q, s ≤ q → q < p.number → σ q = false ∧ σ' q = true := by
  induction n with
  | zero =>
    intro s σ p σ' hb h
    simp [PageMap.mapLoop] at h
  | succ n ih =>
    intro s σ p σ' hb h
    rw [List.range'_succ] at h
    unfold PageMap.mapLoop at h
    have hs : s * 4096 % 2 ^ 64 / 4096 = s := by
      rw [Nat.mod_eq_of_lt (by omega)]
      omega
    rw [hs] at h
    by_cases hm : σ s = true
    · rw [if_pos ⟨rfl, hm⟩] at h
      injection h with hfst hsnd
      injection hfst with herr
      injection herr with hpage
      obtain rfl := hpage
      subst hsnd
      refine ⟨Nat.le_refl s, ?_, rfl, hm, ?_⟩
      · show s < s + (n + 1)
        omega
      · intro q hq1 hq2
        have hq2' : q < s := hq2
        omega
    · rw [if_neg (by simp [hm])] at h
      have main := ih (s + 1) (σ.mapPage s) p σ' (by omega) h
      have hps : s + 1 ≤ p.number := main.1
      have hσp : σ p.number = true := by
        have := main.2.2.2.1
        unfold PageMap.PTState.mapPage at this
        rw [if_neg (by omega)] at this
        exact this
      refine ⟨by omega, by omega, main.2.2.1, hσp, ?_⟩
      intro q hq1 hq2
      by_cases hqs : q = s
      · subst hqs
        constructor
        · simp at hm
          exact hm
        · have : (σ.mapPage q) q = true := by
            unfold PageMap.PTState.mapPage
            rw [if_pos rfl]
          calc σ' q = (PageMap.mapLoop (σ.mapPage q) (List.range' (q + 1) n) false).2 q := by
                rw [h]
            _ = true := mapLoop_preserves_mapped _ _ _ _ this
      · have hq : s + 1 ≤ q := by omega
        have := main.2.2.2.2 q hq hq2
        constructor
        · have h1 := this.1
          unfold PageMap.PTState.mapPage at h1
          rw [if_neg (by omega)] at h1
          exact h1
        · exact this.2

/-- Claim C10: when try_map_user_range with ignore_already_mapped = false
returns Err(AlreadyMapped(p)), the address checks passed, p lies in the range,
p was already mapped at entry, and every page of the range strictly before p
was unmapped at entry and has been newly mapped by the call and remains mapped
in the returned state: the AlreadyMapped error is not atomic. -/
theorem try_map_user_range_already_mapped_nonatomic (σ σ' : PageMap.PTState)
    (a b p : Page)
    (h : PageMap.try_map_user_range σ a b false =
      some (Except.error (PageMap.TryMapError.AlreadyMapped p), σ')) :
    a.number ≤ p.number ∧ p.number ≤ b.number ∧ σ p.number = true ∧
      ∀ q, a.number ≤ q → q < p.number → σ q = false ∧ σ' q = true := by
  unfold PageMap.try_map_user_range at h
  by_cases hsz : a.size = some PageSize.Kib4 ∧ b.size = some PageSize.Kib4
  case neg =>
    rw [if_neg hsz] at h
    simp at h
  rw [if_pos hsz] at h
  by_cases h1 : b.number > PageMap.LAST_USABLE_PAGE.number
  · rw [if_pos h1] at h
    simp at h
  rw [if_neg h1] at h
  by_cases h2 : canonical (b.number * 4096 % 2 ^ 64) = false
  · rw [if_pos h2] at h
    simp at h
  rw [if_neg h2] at h
  by_cases h3 : canonical (a.number * 4096 % 2 ^ 64) = false
  · rw [if_pos h3] at h
    simp at h
  rw [if_neg h3] at h
  by_cases h4 : b.number * 4096 % 2 ^ 64 / 2 ^ 63 = 1
  · rw [if_pos h4] at h
    simp at h
  rw [if_neg h4] at h
  by_cases h5 : a.number * 4096 % 2 ^ 64 / 2 ^ 63 = 1
  · rw [if_pos h5] at h
    simp at h
  rw [if_neg h5] at h
  by_cases h6 : b.number > PageMap.stackBottomPage.number
  · rw [if_pos h6] at h
    simp at h
  rw [if_neg h6] at h
  have h' := Option.some.inj h
  by_cases hab : a.number ≤ b.number
  · have hL : PageMap.LAST_USABLE_PAGE.number = 0x7ffffffee := rfl
    have hbound : a.number + (b.number + 1 - a.number) ≤ 2 ^ 52 := by omega
    have main := mapLoop_already_first (b.number + 1 - a.number) a.number σ p σ' hbound h'
    exact ⟨main.1, by omega, main.2.2.2.1, main.2.2.2.2⟩
  · rw [show b.number + 1 - a.number = 0 by omega] at h'
    simp [PageMap.mapLoop] at h'

/-- Witness for C10: over pages 3..6 with only page 5 mapped, the loop maps
pages 3 and 4, then fails with AlreadyMapped(5); page 4 was unmapped at entry
and is mapped in the returned state. -/
theorem try_map_already_mapped_witness :
    onlyPage5 4 = false ∧ onlyPage5After 4 = true := by
  have h : PageMap.try_map_user_range onlyPage5 (Page.containing_address 0x3000)
      (Page.containing_address 0x6000) false =
      some (Except.error (PageMap.TryMapError.AlreadyMapped
        ⟨5, some PageSize.Kib4⟩), onlyPage5After) := rfl
  exact (try_map_user_range_already_mapped_nonatomic onlyPage5 onlyPage5After
    (Page.containing_address 0x3000) (Page.containing_address 0x6000)
    ⟨5, some PageSize.Kib4⟩ h).2.2.2 4 (by decide) (by decide)

/-- Claim C6: provided the kernel's own P4 (the table active when processes
are built) carries the recursive self-map in entry 510, every P4 the kernel
subsequently activates satisfies both invariants: entry 510 points to the
table's own frame with PRESENT | WRITABLE | NO_EXECUTE | USER_ACCESSIBLE, and
entry 511 equals the kernel P4's higher-half entry; in particular every
process P4 built by new_process_page_tables has 511 copied from the active
table and 510 set to itself before activation. -/
theorem activated_selfmap_kernel_entry (kernel : P4.Table) (kernelFrame : Nat)
    (hkernel : P4.SelfMapAndKernelEntry kernel kernel kernelFrame)
    (t : P4.Table) (f : Nat) (h : P4.Activated kernel kernelFrame t f) :
    P4.SelfMapAndKernelEntry kernel t f := by
  induction h with
  | kernelTable => exact hkernel
  | spawned active activeFrame frameAddr userUpd hactive huser ih =>
    constructor
    · show (userUpd (510 : Fin 512)).getD
        (P4.newProcessPageTables active frameAddr (510 : Fin 512)) =
          frameAddr ||| P4.SELF_MAP_FLAGS
      rw [huser (510 : Fin 512) (by decide)]
      simp [P4.newProcessPageTables, P4.inactivePageMapNew]
    · show (userUpd (511 : Fin 512)).getD
        (P4.newProcessPageTables active frameAddr (511 : Fin 512)) =
          kernel (511 : Fin 512)
      rw [huser (511 : Fin 512) (by decide)]
      simp only [Option.getD_none, P4.newProcessPageTables, if_pos rfl]
      exact ih.2

/-- Witness for C6: a process table built from a concrete kernel table on
frame 0x2000 satisfies both invariants. -/
theorem activated_selfmap_kernel_entry_witness :
    P4.SelfMapAndKernelEntry P4.witnessKernelTable
      (fun i => ((fun _ => (none : Option Nat)) i).getD
        (P4.newProcessPageTables P4.witnessKernelTable 0x2000 i)) 0x2000 :=
  activated_selfmap_kernel_entry P4.witnessKernelTable 0x1000 ⟨by decide, by decide⟩ _ _
    (P4.Activated.spawned P4.witnessKernelTable 0x1000 0x2000 (fun _ => none)
      P4.Activated.kernelTable (fun _ _ => rfl))

/-- Claim C5 (counterexample): when the end-byte computation
ptr + len * size - 1 overflows u64 (ptr = 2^64 - 1, len = 2, element u8), the
byte range extends into kernel space, so the claim predicts
OverlapsKernelSpace, but try_from_user returns InvalidLen (checked_add
returns None), even though len is neither 0 nor above isize::MAX. -/
theorem try_from_user_overflow_counterexample :
    Buffer.try_from_user emptyBufState (some (2 ^ 64 - 1)) 2 1 1 =
      Except.error Buffer.InvalidBufferError.InvalidLen ∧
    Buffer.claimPredictedC5 emptyBufState (some (2 ^ 64 - 1)) 2 1 1 =
      Except.error Buffer.InvalidBufferError.OverlapsKernelSpace ∧
    Buffer.InvalidBufferError.InvalidLen ≠
      Buffer.InvalidBufferError.OverlapsKernelSpace :=
  ⟨rfl, rfl, by decide⟩

/-- Claim C5 (amended): try_from_user returns Null for a null pointer;
Unaligned for a misaligned pointer (checked before the length); InvalidLen
for len = 0, len above isize::MAX, or an end-byte computation
ptr + len * size - 1 that overflows u64; OverlapsKernelSpace when the end
byte reaches the first byte past the last usable user page (and no overflow
occurred); Unmapped when a covered page is unmapped or lacks USER_ACCESSIBLE;
and Ok only when none of these hold. Stated for any element type whose
len * size product fits in u64, which covers the program's only instance
(u8). -/
theorem try_from_user_amended (σ : Buffer.BufState) (ptr : Option Nat)
    (len tsize talign : Nat) (hts : 0 < tsize) (hmul : len * tsize < 2 ^ 64) :
    Buffer.try_from_user σ ptr len tsize talign =
      Buffer.amendedPredictedC5 σ ptr len tsize talign := by
  cases ptr with
  | none => rfl
  | some p =>
    unfold Buffer.try_from_user Buffer.amendedPredictedC5
    dsimp only
    by_cases h1 : p % talign ≠ 0
    · rw [if_pos h1, if_pos h1]
    rw [if_neg h1, if_neg h1]
    by_cases h2 : len = 0 ∨ len > 2 ^ 63 - 1
    · rw [if_pos h2, if_pos h2]
    rw [if_neg h2, if_neg h2]
    have hlen : 1 ≤ len := by omega
    have hm1 : 0 < len * tsize := Nat.mul_pos hlen hts
    have hmod : len * tsize % 2 ^ 64 = len * tsize := Nat.mod_eq_of_lt hmul
    have hspan : (len * tsize % 2 ^ 64 + (2 ^ 64 - 1)) % 2 ^ 64 = len * tsize - 1 := by
      rw [hmod]
      omega
    rw [hspan]
    have hendeq : p + (len * tsize - 1) = p + len * tsize - 1 := by omega
    rw [hendeq]
    by_cases h3 : p + len * tsize - 1 < 2 ^ 64
    · rw [if_pos h3, if_neg (show ¬ p + len * tsize - 1 ≥ 2 ^ 64 by omega)]
      by_cases h4 : p + len * tsize - 1 < Buffer.userBoundary
      · rw [if_pos h4, if_neg (show ¬ p + len * tsize - 1 ≥ Buffer.userBoundary by omega)]
        by_cases h5 : Buffer.allUserMapped σ (p / 4096) ((p + len * tsize - 1) / 4096) = true
        · rw [if_pos h5, if_neg (fun hc => hc h5)]
        · rw [if_neg h5, if_pos h5]
      · rw [if_neg h4, if_pos (show p + len * tsize - 1 ≥ Buffer.userBoundary by omega)]
    · rw [if_neg h3, if_pos (show p + len * tsize - 1 ≥ 2 ^ 64 by omega)]

/-- Witness for the amended C5 theorem: a 5-byte u8 buffer at 0x2000 with
pages 2 and 3 user-mapped. -/
theorem try_from_user_amended_witness :
    Buffer.try_from_user userPages23 (some 0x2000) 5 1 1 =
      Buffer.amendedPredictedC5 userPages23 (some 0x2000) 5 1 1 :=
  try_from_user_amended userPages23 (some 0x2000) 5 1 1 (by decide) (by decide)

/-- Witness for C9 at a concrete address in the fourth GiB with all slots
initialized. -/
theorem deallocate_routes_witness :
    PhysAlloc.deallocate (fun _ => some ()) (3 * 2 ^ 30 + 5) 0 =
      PhysAlloc.DeallocOutcome.delegated 3 5 0 := by
  have h := (deallocate_routes (fun _ => some ()) (3 * 2 ^ 30 + 5) 0).2.1
    (by norm_num) (by rfl)
  rw [h]
  norm_num

end Wolffia
